import Mathlib

/-!
Shallow embedding of the Network Performance Optimizer (src/api/index.py).
Floats are modelled as exact rationals; the Pydantic field constraints of
the request layer become the `Valid` predicate.  The scorer (`analyze_network`),
the stream-profile selector (`get_video_recommendations`), the grid
optimizer (`/optimize`) and the single-shot 1.5x heuristic (`/analyze`)
are embedded as pure functions on this data model.
-/

/-- Input measurements; mirrors the Pydantic model `NetworkConditions`. -/
structure NetworkConditions where
  bandwidth : ℚ
  throughput : ℚ
  packet_loss : ℚ
  latency : ℚ
  jitter : ℚ
deriving DecidableEq, Repr

/-- The Pydantic field constraints: `bandwidth > 0`, `0 ≤ throughput ≤ 1`,
`0 ≤ packet_loss ≤ 100`, `latency ≥ 0`, `jitter ≥ 0`. -/
def NetworkConditions.Valid (c : NetworkConditions) : Prop :=
  0 < c.bandwidth ∧ 0 ≤ c.throughput ∧ c.throughput ≤ 1 ∧
    0 ≤ c.packet_loss ∧ c.packet_loss ≤ 100 ∧ 0 ≤ c.latency ∧ 0 ≤ c.jitter

instance (c : NetworkConditions) : Decidable c.Valid := by
  unfold NetworkConditions.Valid; infer_instance

/-- The running score of `analyze_network` before the clamp:
`100 - packet_loss*2 - latency*0.5 - jitter*5 + throughput*20 + min(bandwidth*5, 30)`. -/
def rawScore (c : NetworkConditions) : ℚ :=
  100 - c.packet_loss * 2 - c.latency * 0.5 - c.jitter * 5
    + c.throughput * 20 + min (c.bandwidth * 5) 30

/-- `score = max(0, min(100, score))` in `analyze_network`. -/
def networkScore (c : NetworkConditions) : ℚ :=
  max 0 (min 100 (rawScore c))

/-- Congestion banding of `analyze_network`. -/
def congestion_of (s : ℚ) : String :=
  if s ≥ 80 then "Low"
  else if s ≥ 60 then "Moderate"
  else if s ≥ 40 then "High"
  else "Severe"

/-- Performance banding of `analyze_network`. -/
def rating_of (s : ℚ) : String :=
  if s ≥ 90 then "Excellent"
  else if s ≥ 75 then "Good"
  else if s ≥ 60 then "Fair"
  else if s ≥ 40 then "Poor"
  else "Critical"

def msg_packet_loss : String :=
  "High packet loss detected. Consider checking network hardware or ISP service."

def msg_latency : String :=
  "High latency detected. Consider using a closer server or check network routing."

def msg_jitter : String :=
  "High jitter detected. QoS settings adjustment recommended."

def msg_throughput : String :=
  "Low throughput detected. Bandwidth upgrade or traffic optimization recommended."

/-- The four appends to `recommendations` in `analyze_network`, in program order. -/
def recommendations_of (c : NetworkConditions) : List String :=
  (if c.packet_loss > 5 then [msg_packet_loss] else []) ++
  (if c.latency > 100 then [msg_latency] else []) ++
  (if c.jitter > 30 then [msg_jitter] else []) ++
  (if c.throughput < 0.3 then [msg_throughput] else [])

/-- Output of the scorer; mirrors the Pydantic model `NetworkAnalysis`. -/
structure NetworkAnalysis where
  network_score : ℚ
  congestion_level : String
  performance_rating : String
  recommendations : List String
deriving DecidableEq, Repr

/-- The scorer `analyze_network`. -/
def analyze_network (c : NetworkConditions) : NetworkAnalysis :=
  { network_score := networkScore c
    congestion_level := congestion_of (networkScore c)
    performance_rating := rating_of (networkScore c)
    recommendations := recommendations_of c }

/-- Stream profile returned by `get_video_recommendations`; the source formats
`bitrate` as a string, modelled here as its exact numeric value in Mbps. -/
structure StreamProfile where
  resolution : String
  fps : ℕ
  bitrate : ℚ
  codec : String
  streaming_quality : String
deriving DecidableEq, Repr

/-- The stream-profile selector `get_video_recommendations`. -/
def get_video_recommendations (c : NetworkConditions) (score : ℚ) : StreamProfile :=
  if score ≥ 80 then
    { resolution := "4K (2160p)", fps := 60, bitrate := min (c.bandwidth * 0.8) 35,
      codec := "H.265/HEVC", streaming_quality := "Ultra High" }
  else if score ≥ 60 then
    { resolution := "1080p", fps := 30, bitrate := min (c.bandwidth * 0.7) 15,
      codec := "H.264/AVC", streaming_quality := "High" }
  else if score ≥ 40 then
    { resolution := "720p", fps := 30, bitrate := min (c.bandwidth * 0.6) 8,
      codec := "H.264/AVC", streaming_quality := "Medium" }
  else
    { resolution := "480p", fps := 24, bitrate := min (c.bandwidth * 0.5) 4,
      codec := "H.264/AVC", streaming_quality := "Low" }

/-- The loop of `optimize_network` rebuilds `conditions.dict()` with only the
bandwidth key replaced:
the input with only the bandwidth replaced. -/
def setBandwidth (c : NetworkConditions) (bw : ℚ) : NetworkConditions :=
  { c with bandwidth := bw }

/-- One point of `np.linspace(bandwidth*0.5, bandwidth*2.0, 10)`:
`min_bw + i * (max_bw - min_bw) / 9`. -/
def candidate (c : NetworkConditions) (i : ℕ) : ℚ :=
  c.bandwidth * 0.5 + i * (c.bandwidth * 2.0 - c.bandwidth * 0.5) / 9

/-- One entry of `optimization_steps` in `optimize_network`. -/
structure OptimizationStep where
  bandwidth : ℚ
  predicted_score : ℚ
  congestion_level : String
  video_quality : StreamProfile
deriving DecidableEq, Repr

/-- The loop body of `optimize_network`: rescore at the candidate bandwidth,
all other fields held fixed. -/
def mkStep (c : NetworkConditions) (bw : ℚ) : OptimizationStep :=
  { bandwidth := bw
    predicted_score := networkScore (setBandwidth c bw)
    congestion_level := congestion_of (networkScore (setBandwidth c bw))
    video_quality :=
      get_video_recommendations (setBandwidth c bw) (networkScore (setBandwidth c bw)) }

/-- The full `optimization_steps` list: one step per linspace point. -/
def optimization_steps (c : NetworkConditions) : List OptimizationStep :=
  (List.range 10).map fun i => mkStep c (candidate c i)

/-- The Python builtin `max(xs, key=...)` restricted to a nonempty list: keeps the current
maximum and replaces it only when a strictly larger key appears, so ties keep
the earliest element. -/
def pickMax (s : OptimizationStep) : List OptimizationStep → OptimizationStep
  | [] => s
  | t :: ts => if s.predicted_score < t.predicted_score then pickMax t ts else pickMax s ts

/-- The `optimal_step` of `optimize_network`: the builtin max over the steps,
keyed by predicted score. -/
def optimal_step (c : NetworkConditions) : OptimizationStep :=
  pickMax (mkStep c (candidate c 0)) ((List.range 9).map fun i => mkStep c (candidate c (i + 1)))

/-- `congestion_reduction = (100 - current_score) - (100 - optimal_score)`. -/
def congestion_reduction (c : NetworkConditions) : ℚ :=
  (100 - networkScore c) - (100 - (optimal_step c).predicted_score)

/-- `quality_improvement` of the performance metrics in the optimal
configuration. -/
def quality_improvement (c : NetworkConditions) : ℚ :=
  (optimal_step c).predicted_score - networkScore c

/-- `network_efficiency = optimal predicted_score / optimal bandwidth`. -/
def network_efficiency (c : NetworkConditions) : ℚ :=
  (optimal_step c).predicted_score / (optimal_step c).bandwidth

/-- The single-shot heuristic of the analyze operation: `bandwidth * 1.5` when the score is
below 60, else the current bandwidth. -/
def recommended_bandwidth (c : NetworkConditions) : ℚ :=
  if networkScore c < 60 then c.bandwidth * 1.5 else c.bandwidth

/-- `potential_improvement = min((recommended/current - 1) * 100, 100)`. -/
def potential_improvement (c : NetworkConditions) : ℚ :=
  min ((recommended_bandwidth c / c.bandwidth - 1) * 100) 100

/-- Ranks congestion bands by quality, best = largest. -/
def congestionQuality : String → ℕ
  | "Low" => 3
  | "Moderate" => 2
  | "High" => 1
  | _ => 0

/-- Ranks performance bands by quality, best = largest. -/
def ratingQuality : String → ℕ
  | "Excellent" => 4
  | "Good" => 3
  | "Fair" => 2
  | "Poor" => 1
  | _ => 0

lemma pickMax_ge (s : OptimizationStep) (ts : List OptimizationStep) :
    ∀ x ∈ s :: ts, x.predicted_score ≤ (pickMax s ts).predicted_score := by
  induction ts generalizing s with
  | nil => intro x hx; simp at hx; simp [hx, pickMax]
  | cons t ts ih =>
    intro x hx
    rw [pickMax]
    split
    case isTrue h =>
      rcases List.mem_cons.mp hx with h1 | hx
      · rw [h1]; exact le_trans (le_of_lt h) (ih t t (List.mem_cons_self t ts))
      · exact ih t x hx
    case isFalse h =>
      rcases List.mem_cons.mp hx with h1 | hx
      · rw [h1]; exact ih s s (List.mem_cons_self s ts)
      · rcases List.mem_cons.mp hx with h1 | hx
        · rw [h1]; exact le_trans (not_lt.mp h) (ih s s (List.mem_cons_self s ts))
        · exact ih s x (List.mem_cons.mpr (Or.inr hx))

lemma pickMax_split (ts : List OptimizationStep) (s : OptimizationStep) :
    ∃ l₁ l₂, s :: ts = l₁ ++ pickMax s ts :: l₂ ∧
      ∀ x ∈ l₁, x.predicted_score < (pickMax s ts).predicted_score := by
  induction ts generalizing s with
  | nil => exact ⟨[], [], by simp [pickMax], by simp⟩
  | cons t ts ih =>
    rw [pickMax]
    split
    case isTrue h =>
      obtain ⟨l₁, l₂, heq, hlt⟩ := ih t
      refine ⟨s :: l₁, l₂, by rw [List.cons_append, ← heq], ?_⟩
      intro x hx
      rcases List.mem_cons.mp hx with h1 | hx
      · rw [h1]; exact lt_of_lt_of_le h (pickMax_ge t ts t (List.mem_cons_self t ts))
      · exact hlt x hx
    case isFalse h =>
      obtain ⟨l₁, l₂, heq, hlt⟩ := ih s
      match l₁, heq, hlt with
      | [], heq, hlt =>
        rw [List.nil_append] at heq
        injection heq with h1 h2
        exact ⟨[], t :: ts, by rw [List.nil_append, ← h1], by simp⟩
      | a :: l₁, heq, hlt =>
        rw [List.cons_append] at heq
        injection heq with h1 h2
        have hsl : s.predicted_score < (pickMax s ts).predicted_score := by
          have ha := hlt a (List.mem_cons_self a l₁)
          rwa [← h1] at ha
        refine ⟨s :: t :: l₁, l₂, ?_, ?_⟩
        · rw [List.cons_append, List.cons_append, ← h2]
        · intro x hx
          rcases List.mem_cons.mp hx with hx1 | hx
          · rw [hx1]; exact hsl
          · rcases List.mem_cons.mp hx with hx1 | hx
            · rw [hx1]; exact lt_of_le_of_lt (not_lt.mp h) hsl
            · exact hlt x (List.mem_cons.mpr (Or.inr hx))

lemma steps_cons (c : NetworkConditions) :
    optimization_steps c =
      mkStep c (candidate c 0) :: (List.range 9).map fun i => mkStep c (candidate c (i + 1)) := by
  simp [optimization_steps, List.range_succ_eq_map, List.map_map, Function.comp]

lemma optimal_step_ge (c : NetworkConditions) :
    ∀ x ∈ optimization_steps c, x.predicted_score ≤ (optimal_step c).predicted_score := by
  rw [steps_cons]
  exact pickMax_ge _ _

lemma optimal_step_first (c : NetworkConditions) :
    ∃ l₁ l₂, optimization_steps c = l₁ ++ optimal_step c :: l₂ ∧
      ∀ x ∈ l₁, x.predicted_score < (optimal_step c).predicted_score := by
  rw [steps_cons]
  exact pickMax_split _ _

lemma optimal_step_mem (c : NetworkConditions) :
    optimal_step c ∈ optimization_steps c := by
  obtain ⟨l₁, l₂, heq, -⟩ := optimal_step_first c
  rw [heq]
  exact List.mem_append.mpr (Or.inr (List.mem_cons_self _ _))

lemma candidate_closed (c : NetworkConditions) (i : ℕ) :
    candidate c i = c.bandwidth * 0.5 + i * c.bandwidth / 6 := by
  unfold candidate; ring

lemma candidate_strictMono (c : NetworkConditions) (hb : 0 < c.bandwidth)
    {i j : ℕ} (hij : i < j) : candidate c i < candidate c j := by
  rw [candidate_closed, candidate_closed]
  have h : (i : ℚ) < j := by exact_mod_cast hij
  have h2 : (i : ℚ) * c.bandwidth < (j : ℚ) * c.bandwidth := mul_lt_mul_of_pos_right h hb
  linarith

lemma candidate_pos (c : NetworkConditions) (hb : 0 < c.bandwidth) (i : ℕ) :
    0 < candidate c i := by
  rw [candidate_closed]
  have hi : (0:ℚ) ≤ i := Nat.cast_nonneg i
  nlinarith

lemma score_mono_bandwidth (c : NetworkConditions) {bw bw' : ℚ} (h : bw ≤ bw') :
    networkScore (setBandwidth c bw) ≤ networkScore (setBandwidth c bw') := by
  unfold networkScore
  refine max_le_max le_rfl (min_le_min le_rfl ?_)
  unfold rawScore setBandwidth
  simp only
  have : min (bw * 5) 30 ≤ min (bw' * 5) 30 := min_le_min (by linarith) le_rfl
  linarith

lemma steps_bandwidth (c : NetworkConditions) :
    ∀ s ∈ optimization_steps c, ∃ i < 10, s = mkStep c (candidate c i) := by
  intro s hs
  obtain ⟨i, hi, rfl⟩ := List.mem_map.mp hs
  exact ⟨i, List.mem_range.mp hi, rfl⟩

lemma congestion_mono {s t : ℚ} (h : s ≤ t) :
    congestionQuality (congestion_of s) ≤ congestionQuality (congestion_of t) := by
  unfold congestion_of
  split_ifs <;> simp [congestionQuality] <;> linarith

lemma rating_mono {s t : ℚ} (h : s ≤ t) :
    ratingQuality (rating_of s) ≤ ratingQuality (rating_of t) := by
  unfold rating_of
  split_ifs <;> simp [ratingQuality] <;> linarith

/-- C1: for every valid input the score is exactly the clamped linear formula,
and lies in [0, 100]. -/
theorem scorer_formula_and_clamp (c : NetworkConditions) (h : c.Valid) :
    networkScore c =
      max 0 (min 100 (100 - c.packet_loss * 2 - c.latency * 0.5 - c.jitter * 5
        + c.throughput * 20 + min (c.bandwidth * 5) 30)) ∧
    0 ≤ networkScore c ∧ networkScore c ≤ 100 := by
  refine ⟨rfl, le_max_left 0 _, ?_⟩
  unfold networkScore
  exact max_le (by norm_num) (min_le_left 100 _)

def wC1 : NetworkConditions := ⟨10, 0.5, 0, 20, 5⟩

theorem scorer_formula_and_clamp_witness :
    networkScore wC1 =
      max 0 (min 100 (100 - wC1.packet_loss * 2 - wC1.latency * 0.5 - wC1.jitter * 5
        + wC1.throughput * 20 + min (wC1.bandwidth * 5) 30)) ∧
    0 ≤ networkScore wC1 ∧ networkScore wC1 ≤ 100 :=
  scorer_formula_and_clamp wC1 (by norm_num [wC1, NetworkConditions.Valid])

def wC2 : NetworkConditions := ⟨1, 0, 20, 200, 50⟩

/-- C2: both bands are pure functions of the clamped score with the stated
thresholds, and both are non-decreasing in quality as the score increases. -/
theorem banding_pure_monotone (s t : ℚ) (c₁ c₂ : NetworkConditions) :
    (analyze_network c₁).congestion_level = congestion_of (networkScore c₁) ∧
    (analyze_network c₁).performance_rating = rating_of (networkScore c₁) ∧
    (congestion_of s = if s ≥ 80 then "Low" else if s ≥ 60 then "Moderate"
      else if s ≥ 40 then "High" else "Severe") ∧
    (rating_of s = if s ≥ 90 then "Excellent" else if s ≥ 75 then "Good"
      else if s ≥ 60 then "Fair" else if s ≥ 40 then "Poor" else "Critical") ∧
    (networkScore c₁ = networkScore c₂ →
      (analyze_network c₁).congestion_level = (analyze_network c₂).congestion_level ∧
      (analyze_network c₁).performance_rating = (analyze_network c₂).performance_rating) ∧
    (s ≤ t →
      congestionQuality (congestion_of s) ≤ congestionQuality (congestion_of t) ∧
      ratingQuality (rating_of s) ≤ ratingQuality (rating_of t)) := by
  refine ⟨rfl, rfl, rfl, rfl, ?_, ?_⟩
  · intro h
    exact ⟨by simp [analyze_network, h], by simp [analyze_network, h]⟩
  · intro h
    exact ⟨congestion_mono h, rating_mono h⟩

theorem banding_pure_monotone_witness :
    congestionQuality (congestion_of 50) ≤ congestionQuality (congestion_of 70) ∧
    ratingQuality (rating_of 50) ≤ ratingQuality (rating_of 70) :=
  (banding_pure_monotone 50 70 wC1 wC1).2.2.2.2.2 (by norm_num)

/-- C5: recommendations are four independent gates on the raw inputs, in fixed
order, empty iff no gate fires, and depend only on the four gated fields. -/
theorem recommendation_gates (c c' : NetworkConditions) :
    (analyze_network c).recommendations =
      (if c.packet_loss > 5 then [msg_packet_loss] else []) ++
      (if c.latency > 100 then [msg_latency] else []) ++
      (if c.jitter > 30 then [msg_jitter] else []) ++
      (if c.throughput < 0.3 then [msg_throughput] else []) ∧
    ((analyze_network c).recommendations = [] ↔
      ¬ c.packet_loss > 5 ∧ ¬ c.latency > 100 ∧ ¬ c.jitter > 30 ∧ ¬ c.throughput < 0.3) ∧
    (c.packet_loss = c'.packet_loss → c.latency = c'.latency → c.jitter = c'.jitter →
      c.throughput = c'.throughput →
      (analyze_network c).recommendations = (analyze_network c').recommendations) := by
  refine ⟨rfl, ?_, ?_⟩
  · show recommendations_of c = [] ↔ _
    unfold recommendations_of
    split_ifs <;> simp_all [msg_packet_loss, msg_latency, msg_jitter, msg_throughput]
  · intro h1 h2 h3 h4
    show recommendations_of c = recommendations_of c'
    unfold recommendations_of
    rw [h1, h2, h3, h4]

theorem recommendation_gates_witness :
    (analyze_network wC1).recommendations = (analyze_network (setBandwidth wC1 99)).recommendations :=
  (recommendation_gates wC1 (setBandwidth wC1 99)).2.2 rfl rfl rfl rfl

/-- C7: the stream-profile selector returns exactly the profile of the tier
table. -/
theorem stream_profile_table (c : NetworkConditions) (s : ℚ) :
    (s ≥ 80 → get_video_recommendations c s =
      ⟨"4K (2160p)", 60, min (c.bandwidth * 0.8) 35, "H.265/HEVC", "Ultra High"⟩) ∧
    (¬ s ≥ 80 → s ≥ 60 → get_video_recommendations c s =
      ⟨"1080p", 30, min (c.bandwidth * 0.7) 15, "H.264/AVC", "High"⟩) ∧
    (¬ s ≥ 80 → ¬ s ≥ 60 → s ≥ 40 → get_video_recommendations c s =
      ⟨"720p", 30, min (c.bandwidth * 0.6) 8, "H.264/AVC", "Medium"⟩) ∧
    (¬ s ≥ 80 → ¬ s ≥ 60 → ¬ s ≥ 40 → get_video_recommendations c s =
      ⟨"480p", 24, min (c.bandwidth * 0.5) 4, "H.264/AVC", "Low"⟩) := by
  unfold get_video_recommendations
  refine ⟨?_, ?_, ?_, ?_⟩
  · intro h1; rw [if_pos h1]
  · intro h1 h2; rw [if_neg h1, if_pos h2]
  · intro h1 h2 h3; rw [if_neg h1, if_neg h2, if_pos h3]
  · intro h1 h2 h3; rw [if_neg h1, if_neg h2, if_neg h3]

theorem stream_profile_table_witness :
    get_video_recommendations wC1 85 =
      ⟨"4K (2160p)", 60, min (wC1.bandwidth * 0.8) 35, "H.265/HEVC", "Ultra High"⟩ :=
  (stream_profile_table wC1 85).1 (by norm_num)

/-- C6 as stated is false: scores 79 and 80 share a performance rating
("Good") yet select different stream tiers. -/
theorem stream_tier_vs_rating_cex :
    ¬ ((rating_of 79 = rating_of 80) ↔
      ((get_video_recommendations wC2 79).streaming_quality =
        (get_video_recommendations wC2 80).streaming_quality)) := by
  decide

/-- C6 amended: the stream tiers change exactly at the congestion-level
boundaries (80/60/40), not at the performance-rating boundaries. -/
theorem stream_tier_matches_congestion (c : NetworkConditions) (s t : ℚ) :
    congestion_of s = congestion_of t ↔
      (get_video_recommendations c s).streaming_quality =
        (get_video_recommendations c t).streaming_quality := by
  unfold congestion_of get_video_recommendations
  split_ifs <;> simp

/-- C4: the selected step attains the maximum predicted score, and everything
generated before it scores strictly lower (first-of-ties selection). -/
theorem optimal_selection (c : NetworkConditions) :
    (∀ s ∈ optimization_steps c, s.predicted_score ≤ (optimal_step c).predicted_score) ∧
    ∃ l₁ l₂, optimization_steps c = l₁ ++ optimal_step c :: l₂ ∧
      ∀ x ∈ l₁, x.predicted_score < (optimal_step c).predicted_score :=
  ⟨optimal_step_ge c, optimal_step_first c⟩

theorem optimal_selection_witness :
    (mkStep wC2 (candidate wC2 0)).predicted_score ≤ (optimal_step wC2).predicted_score :=
  (optimal_selection wC2).1 (mkStep wC2 (candidate wC2 0))
    (List.mem_map.mpr ⟨0, List.mem_range.mpr (by norm_num), rfl⟩)

/-- C3: the optimizer generates exactly 10 steps from the endpoint-inclusive
10-point grid over [bandwidth*0.5, bandwidth*2.0]; candidates are strictly
increasing, hit the endpoints exactly, and each step rescores the input with
only the bandwidth replaced. -/
theorem optimizer_grid (c : NetworkConditions) (h : c.Valid) :
    (optimization_steps c).length = 10 ∧
    (∀ i : ℕ, candidate c i =
      c.bandwidth * 0.5 + i * (c.bandwidth * 2.0 - c.bandwidth * 0.5) / 9) ∧
    candidate c 0 = c.bandwidth * 0.5 ∧
    candidate c 9 = c.bandwidth * 2.0 ∧
    (∀ i j : ℕ, i < j → candidate c i < candidate c j) ∧
    (∀ i, i < 10 → (optimization_steps c)[i]? = some (mkStep c (candidate c i))) ∧
    (∀ bw : ℚ, (setBandwidth c bw).bandwidth = bw ∧
      (setBandwidth c bw).throughput = c.throughput ∧
      (setBandwidth c bw).packet_loss = c.packet_loss ∧
      (setBandwidth c bw).latency = c.latency ∧
      (setBandwidth c bw).jitter = c.jitter) := by
  refine ⟨by simp [optimization_steps], fun i => rfl, ?_, ?_, ?_, ?_, fun bw => ⟨rfl, rfl, rfl, rfl, rfl⟩⟩
  · rw [candidate_closed]; push_cast; ring
  · rw [candidate_closed]; push_cast; ring
  · exact fun i j hij => candidate_strictMono c h.1 hij
  · intro i hi
    simp [optimization_steps, List.getElem?_map, List.getElem?_range, hi]

theorem optimizer_grid_witness :
    candidate wC2 0 = wC2.bandwidth * 0.5 ∧ candidate wC2 9 = wC2.bandwidth * 2.0 :=
  ⟨(optimizer_grid wC2 (by norm_num [wC2, NetworkConditions.Valid])).2.2.1,
   (optimizer_grid wC2 (by norm_num [wC2, NetworkConditions.Valid])).2.2.2.1⟩

/-- C8: network_efficiency is the optimal score over the optimal bandwidth,
and for valid input every candidate bandwidth (hence the divisor) is positive. -/
theorem efficiency_div_safe (c : NetworkConditions) (h : c.Valid) :
    network_efficiency c = (optimal_step c).predicted_score / (optimal_step c).bandwidth ∧
    0 < (optimal_step c).bandwidth ∧
    ∀ s ∈ optimization_steps c, 0 < s.bandwidth := by
  have hpos : ∀ s ∈ optimization_steps c, 0 < s.bandwidth := by
    intro s hs
    obtain ⟨i, _, rfl⟩ := steps_bandwidth c s hs
    exact candidate_pos c h.1 i
  exact ⟨rfl, hpos _ (optimal_step_mem c), hpos⟩

theorem efficiency_div_safe_witness : 0 < (optimal_step wC2).bandwidth :=
  (efficiency_div_safe wC2 (by norm_num [wC2, NetworkConditions.Valid])).2.1

/-- C9: the /analyze heuristic recommends bandwidth*1.5 exactly when the score
is below 60, caps the reported improvement at 100%, and is a function of the
score and current bandwidth alone (it never consults the optimizer grid). -/
theorem analyze_heuristic (c : NetworkConditions) :
    (networkScore c < 60 → recommended_bandwidth c = c.bandwidth * 1.5) ∧
    (¬ networkScore c < 60 → recommended_bandwidth c = c.bandwidth) ∧
    potential_improvement c =
      min ((recommended_bandwidth c / c.bandwidth - 1) * 100) 100 ∧
    potential_improvement c ≤ 100 ∧
    (∀ c' : NetworkConditions, networkScore c' = networkScore c →
      c'.bandwidth = c.bandwidth → recommended_bandwidth c' = recommended_bandwidth c) := by
  refine ⟨?_, ?_, rfl, min_le_right _ _, ?_⟩
  · intro h; rw [recommended_bandwidth, if_pos h]
  · intro h; rw [recommended_bandwidth, if_neg h]
  · intro c' h1 h2; rw [recommended_bandwidth, recommended_bandwidth, h1, h2]

theorem analyze_heuristic_witness :
    recommended_bandwidth wC2 = wC2.bandwidth * 1.5 :=
  (analyze_heuristic wC2).1
    (by norm_num [networkScore, rawScore, wC2, min_def, max_def])

/-- C10: in exact arithmetic the grid contains the input bandwidth at index 3,
the score is non-decreasing in bandwidth, so the optimal predicted score is at
least the current score and both improvement deltas are non-negative. -/
theorem grid_contains_input_no_regression (c : NetworkConditions) :
    candidate c 3 = c.bandwidth ∧
    (∀ bw bw' : ℚ, bw ≤ bw' →
      networkScore (setBandwidth c bw) ≤ networkScore (setBandwidth c bw')) ∧
    networkScore c ≤ (optimal_step c).predicted_score ∧
    0 ≤ quality_improvement c ∧
    0 ≤ congestion_reduction c := by
  have h3 : candidate c 3 = c.bandwidth := by rw [candidate_closed]; push_cast; ring
  have hmem : mkStep c (candidate c 3) ∈ optimization_steps c :=
    List.mem_map.mpr ⟨3, List.mem_range.mpr (by norm_num), rfl⟩
  have hscore : (mkStep c (candidate c 3)).predicted_score = networkScore c := by
    show networkScore (setBandwidth c (candidate c 3)) = networkScore c
    rw [h3]
    show networkScore ⟨c.bandwidth, c.throughput, c.packet_loss, c.latency, c.jitter⟩ = networkScore c
    rfl
  have hle : networkScore c ≤ (optimal_step c).predicted_score := by
    rw [← hscore]; exact optimal_step_ge c _ hmem
  refine ⟨h3, fun bw bw' hb => score_mono_bandwidth c hb, hle, ?_, ?_⟩
  · unfold quality_improvement; linarith
  · unfold congestion_reduction; linarith

theorem grid_contains_input_no_regression_witness :
    networkScore (setBandwidth wC2 1) ≤ networkScore (setBandwidth wC2 2) :=
  (grid_contains_input_no_regression wC2).2.1 1 2 (by norm_num)
